import Mathlib

/-!
Verification of the HydroLip Scanner single-page application (`src/main.jsx`).

The React component `App` holds five pieces of state: `image` (a data-URI
string or null), `isAnalyzing`, `results` (the parsed analysis object or
null), `error` (a display string) and `isCameraActive`, plus a ref
`streamRef` holding the open media stream. We embed this state as the
structure `AppState`, each event handler of the component as a function on
`AppState`, and the user/network-driven dynamics as a step function over an
event type whose guards are exactly the rendering conditions of the JSX
(an event can fire only while its button is rendered, and an analysis
completion only while a call is outstanding). Strings that the code only
compares for equality are modelled as `String`; strings the code inspects
character by character (`split(',')`, `toLowerCase`, `includes`) are
modelled as `List Char`.
-/

namespace LipHydration

/-- A media-stream track. `stopped` records whether `track.stop()` has been
called on it; `stopTrack` models that call. -/
structure Track where
  stopped : Bool
  deriving DecidableEq, Repr

/-- Model of `track.stop()`. -/
def stopTrack (t : Track) : Track :=
  { t with stopped := true }

/-- The structured analysis object parsed from the model reply, following the
`responseSchema` declared in `analyzeLips`. `overallStatus` is optional
because the embedding must also cover replies where the field is absent
(`getStatusColor` guards against that with `status?.`); its text is a list of
characters because the code inspects it character-wise. -/
structure AnalysisResult where
  overallStatus : Option (List Char)
  dehydrationScore : Int
  crackness : String
  dryness : String
  moisture : String
  color : String
  recommendations : List String
  deriving DecidableEq, Repr

/-- A file coming out of the file picker: its declared media type, and the
data-URI that `FileReader.readAsDataURL` would produce for it. -/
structure File where
  type : String
  dataUrl : String
  deriving DecidableEq, Repr

/-- The component state of `App`: the `useState` hooks `image`, `isAnalyzing`,
`results`, `error`, `isCameraActive`, and the ref `streamRef`. The ghost field
`released` logs every track on which `track.stop()` was called, so that
release of camera resources remains observable after the stream handle is
nulled out. -/
structure AppState where
  image : Option String
  isAnalyzing : Bool
  results : Option AnalysisResult
  error : String
  isCameraActive : Bool
  streamRef : Option (List Track)
  released : List Track
  deriving DecidableEq, Repr

/-- The initial hook values: `useState(null)`, `useState(false)`,
`useState(null)`, `useState('')`, `useState(false)`, `useRef(null)`. -/
def initState : AppState :=
  { image := none, isAnalyzing := false, results := none, error := ""
    isCameraActive := false, streamRef := none, released := [] }

/-- Error string from `handleImageUpload` for a non-image file. -/
def invalidImageMsg : String := "Please upload a valid image file."

/-- Error string from the catch branch of `startCamera`. -/
def cameraErrorMsg : String :=
  "Could not access camera. Please check permissions or upload a photo."

/-- Error string from the catch branch of `analyzeLips`. -/
def analysisErrorMsg : String := "Analysis failed. Check your API key in Vercel settings."

/-- JavaScript `s.startsWith(p)`, computed on the character lists of the two
strings. -/
def jsStartsWith (s p : String) : Bool :=
  List.isPrefixOf p.toList s.toList

/-- `handleImageUpload`: reads `e.target.files[0]` (possibly absent); rejects
a file whose declared type does not start with `"image/"` by setting the
error message and returning; otherwise the `reader.onload` callback stores
the data-URI as the image and clears `results` and `error`. The asynchronous
`FileReader` is collapsed into the success branch. -/
def handleImageUpload (s : AppState) (file : Option File) : AppState :=
  match file with
  | none => s
  | some f =>
    if jsStartsWith f.type "image/" then
      { s with image := some f.dataUrl, results := none, error := "" }
    else
      { s with error := invalidImageMsg }

/-- `startCamera`: clears the error, then awaits `getUserMedia`. `grant` is
the platform's answer: `some tracks` stores the stream and activates the
camera view; `none` (permission denied or no device) sets the camera error
message. -/
def startCamera (s : AppState) (grant : Option (List Track)) : AppState :=
  match grant with
  | some tracks =>
    { s with error := "", streamRef := some tracks, isCameraActive := true }
  | none => { s with error := cameraErrorMsg }

/-- `stopCamera`: if a stream is held, calls `track.stop()` on each of its
tracks (logged in `released`) and nulls the ref; then deactivates the camera
view. -/
def stopCamera (s : AppState) : AppState :=
  match s.streamRef with
  | some tracks =>
    { s with streamRef := none, isCameraActive := false
             released := s.released ++ tracks.map stopTrack }
  | none => { s with isCameraActive := false }

/-- `capturePhoto`: does nothing unless `videoRef.current` exists; otherwise
draws the mirrored frame to a canvas, stores `canvas.toDataURL('image/jpeg', 0.8)`
as the image (the produced data-URI is the parameter `dataUrl`), and calls
`stopCamera`. -/
def capturePhoto (s : AppState) (videoPresent : Bool) (dataUrl : String) : AppState :=
  if videoPresent then
    stopCamera { s with image := some dataUrl }
  else s

/-- The synchronous prefix of `analyzeLips`, up to issuing the fetch:
`if (!image) return;` then `setIsAnalyzing(true); setError('')` and the
request goes out. Returns the new state and whether an outbound request was
issued. -/
def analyzeStart (s : AppState) : AppState × Bool :=
  match s.image with
  | none => (s, false)
  | some _ => ({ s with isAnalyzing := true, error := "" }, true)

/-- One `parts` entry of the response envelope. -/
structure Part where
  text : String
  deriving DecidableEq, Repr

/-- The `content` object of a response candidate. -/
structure Content where
  parts : List Part
  deriving DecidableEq, Repr

/-- One entry of the `candidates` array of the response envelope. -/
structure Candidate where
  content : Content
  deriving DecidableEq, Repr

/-- The response envelope of the generateContent endpoint, as far as
`analyzeLips` reads it. -/
structure Envelope where
  candidates : List Candidate
  deriving DecidableEq, Repr

/-- The access chain `data.candidates[0].content.parts[0].text`; `none` when
an index is out of range (in JS the access throws and lands in the catch). -/
def getResultText (data : Envelope) : Option String :=
  match data.candidates with
  | [] => none
  | c :: _ =>
    match c.content.parts with
    | [] => none
    | p :: _ => some p.text

/-- The overall outcome of the awaited part of `analyzeLips`' try block:
`httpOut` is `none` when `fetch` rejects or `response.json()` fails to parse
the body into an envelope; `parse` models `JSON.parse` on the extracted text,
`none` meaning it throws. Any `none` along the chain lands in the catch. -/
def analysisOutcome (httpOut : Option Envelope)
    (parse : String → Option AnalysisResult) : Option AnalysisResult :=
  match httpOut with
  | none => none
  | some data =>
    match getResultText data with
    | none => none
    | some txt => parse txt

/-- The resumption of `analyzeLips` after the awaits: on success
`setResults(JSON.parse(resultText))`, on any caught failure
`setError('Analysis failed. ...')`; the finally block runs
`setIsAnalyzing(false)` on both paths. -/
def analyzeSettle (s : AppState) (out : Option AnalysisResult) : AppState :=
  match out with
  | some r => { s with results := some r, isAnalyzing := false }
  | none => { s with error := analysisErrorMsg, isAnalyzing := false }

/-- `getApiKey`: reads `import.meta.env?.VITE_GEMINI_API_KEY` inside a
try/catch. The accessor outcome is `Except.error ()` when the environment
read throws, `Except.ok none` when the variable is undefined, `Except.ok
(some k)` when it holds `k`; `key || ""` maps the empty string (falsy) to
`""`. -/
def getApiKey (envAccess : Except Unit (Option String)) : String :=
  match envAccess with
  | .error _ => ""
  | .ok none => ""
  | .ok (some k) => if k = "" then "" else k

/-- JavaScript `string.split(sep)` for a one-character separator, on the
character list of the string: splits into the (possibly empty) segments
between occurrences of `sep`. -/
def jsSplit (sep : Char) : List Char → List (List Char)
  | [] => [[]]
  | c :: cs =>
    match jsSplit sep cs with
    | [] => [[]]
    | g :: gs => if c = sep then [] :: g :: gs else (c :: g) :: gs

/-- `image.split(',')[1]` from `analyzeLips`: the second segment of the
comma-split of the data-URI, `none` when the split has fewer than two
segments (JS `undefined`). -/
def base64DataL (image : List Char) : Option (List Char) :=
  (jsSplit ',' image)[1]?

/-- `base64DataL` on a `String` image payload. -/
def base64Data (image : String) : Option (List Char) :=
  base64DataL image.toList

/-- JavaScript `hay.includes(needle)` on character lists: true when `needle`
occurs in `hay` as a contiguous substring. -/
def jsIncludes : List Char → List Char → Bool
  | [], needle => needle.isEmpty
  | c :: t, needle => List.isPrefixOf needle (c :: t) || jsIncludes t needle

/-- `getStatusColor(status, type)`: lowercases the status (empty for
null/undefined, via `status?.toLowerCase() || ''`), then classifies by
substring: contains "well" → emerald (healthy), else contains "mild" →
amber (caution), else rose (alert); `type === 'bg'` selects the background
variant, anything else the text variant. -/
def getStatusColor (status : Option (List Char)) (ty : String) : String :=
  let s := (status.getD []).map Char.toLower
  if jsIncludes s ("well".toList) then
    if ty = "bg" then "bg-emerald-500" else "text-emerald-600"
  else if jsIncludes s ("mild".toList) then
    if ty = "bg" then "bg-amber-500" else "text-amber-600"
  else
    if ty = "bg" then "bg-rose-500" else "text-rose-600"

/-- The score shown on the result panel: `{results.dehydrationScore}%`. -/
def renderedScore (r : AnalysisResult) : String :=
  toString r.dehydrationScore ++ "%"

/-- Rendering condition of the Camera/Upload choice panel:
`!image && !isCameraActive`. -/
def showsIdlePanel (s : AppState) : Bool :=
  s.image.isNone && !s.isCameraActive

/-- Rendering condition of the live camera view: `isCameraActive`. -/
def showsCameraPanel (s : AppState) : Bool :=
  s.isCameraActive

/-- Rendering condition of the preview panel with the Analyze and Retake
buttons: `image && !results && !isAnalyzing`. -/
def showsImageReadyPanel (s : AppState) : Bool :=
  s.image.isSome && s.results.isNone && !s.isAnalyzing

/-- Rendering condition of the spinner: `isAnalyzing`. -/
def showsAnalyzingPanel (s : AppState) : Bool :=
  s.isAnalyzing

/-- Rendering condition of the result panel with the Try Again button:
`results`. -/
def showsResultsPanel (s : AppState) : Bool :=
  s.results.isSome

/-- The user and network events that drive the component. `upload` carries
the picked file, `startCamera` the platform's grant or denial, `capture`
whether `videoRef.current` exists and the data-URI the canvas encodes,
`analyzeDone` the outcome of the awaited analysis call. -/
inductive Event where
  | upload (file : Option File)
  | startCamera (grant : Option (List Track))
  | capture (videoPresent : Bool) (dataUrl : String)
  | analyzePress
  | analyzeDone (out : Option AnalysisResult)
  | retake
  | tryAgain

/-- One step of the application: each handler fires only while the button
that invokes it is rendered (the JSX conditions above), and a completion
event only while a call is outstanding; otherwise the state is unchanged.
`retake` is `() => setImage(null)` and `tryAgain` is
`() => setResults(null)`. -/
def step (s : AppState) (e : Event) : AppState :=
  match e with
  | .upload f => if showsIdlePanel s then handleImageUpload s f else s
  | .startCamera grant => if showsIdlePanel s then startCamera s grant else s
  | .capture v url => if showsCameraPanel s then capturePhoto s v url else s
  | .analyzePress => if showsImageReadyPanel s then (analyzeStart s).1 else s
  | .analyzeDone out => if s.isAnalyzing then analyzeSettle s out else s
  | .retake => if showsImageReadyPanel s then { s with image := none } else s
  | .tryAgain => if showsResultsPanel s then { s with results := none } else s

/-- Whether processing event `e` in state `s` issues an outbound HTTP
request: only a press of the rendered Analyze button whose `analyzeLips`
passes the `!image` guard does. -/
def issuesRequest (s : AppState) (e : Event) : Bool :=
  match e with
  | .analyzePress => showsImageReadyPanel s && (analyzeStart s).2
  | _ => false

/-- Run a list of events from the initial state. -/
def run (es : List Event) : AppState :=
  es.foldl step initState

/-- A state is reachable when some event sequence produces it. -/
def Reachable (s : AppState) : Prop :=
  ∃ es, run es = s

/-- The inductive invariant of the application: while the camera view is
open there is no image, no result and no error; while a call is outstanding
an image exists and no result yet; a result implies an image; and every
track ever logged as released was stopped. -/
def Inv (s : AppState) : Prop :=
  (s.isCameraActive = true → s.image = none ∧ s.results = none ∧ s.error = "") ∧
  (s.isAnalyzing = true → s.image ≠ none ∧ s.results = none) ∧
  (s.results ≠ none → s.image ≠ none) ∧
  (∀ t ∈ s.released, t.stopped = true)

lemma showsIdlePanel_eq_true (s : AppState) :
    showsIdlePanel s = true ↔ s.image = none ∧ s.isCameraActive = false := by
  simp [showsIdlePanel, Option.isNone_iff_eq_none]

lemma showsImageReadyPanel_eq_true (s : AppState) :
    showsImageReadyPanel s = true ↔
      s.image ≠ none ∧ s.results = none ∧ s.isAnalyzing = false := by
  simp [showsImageReadyPanel, Option.isSome_iff_ne_none, Option.isNone_iff_eq_none,
    and_assoc]

lemma showsResultsPanel_eq_true (s : AppState) :
    showsResultsPanel s = true ↔ s.results ≠ none := by
  simp [showsResultsPanel, Option.isSome_iff_ne_none]

lemma inv_init : Inv initState := by
  simp [Inv, initState]

lemma inv_facts_of_idle {s : AppState} (hg : showsIdlePanel s = true) (h : Inv s) :
    s.image = none ∧ s.isCameraActive = false ∧ s.results = none ∧
      s.isAnalyzing = false := by
  obtain ⟨-, hana, hres, -⟩ := h
  obtain ⟨himg, hcamF⟩ := (showsIdlePanel_eq_true s).mp hg
  refine ⟨himg, hcamF, ?_, ?_⟩
  · by_contra hc
    exact (hres hc) himg
  · by_contra hc
    exact (hana (by simpa using hc)).1 himg

lemma inv_step (s : AppState) (e : Event) (h : Inv s) : Inv (step s e) := by
  obtain ⟨hcam, hana, hres, hrel⟩ := h
  cases e with
  | upload f =>
    simp only [step]
    split
    · rename_i hg
      obtain ⟨himg, hcamF, hresN, hanaF⟩ := inv_facts_of_idle hg ⟨hcam, hana, hres, hrel⟩
      cases f with
      | none => exact ⟨hcam, hana, hres, hrel⟩
      | some f =>
        simp only [handleImageUpload]
        split
        · exact ⟨by simp [hcamF], by simp [hanaF], by simp, hrel⟩
        · exact ⟨by simp [hcamF], by simp [hanaF], by simp [hresN], hrel⟩
    · exact ⟨hcam, hana, hres, hrel⟩
  | startCamera grant =>
    simp only [step]
    split
    · rename_i hg
      obtain ⟨himg, hcamF, hresN, hanaF⟩ := inv_facts_of_idle hg ⟨hcam, hana, hres, hrel⟩
      cases grant with
      | none =>
        simp only [startCamera]
        exact ⟨by simp [hcamF], by simp [hanaF], by simp [hresN], hrel⟩
      | some tracks =>
        simp only [startCamera]
        exact ⟨by simp [himg, hresN], by simp [hanaF], by simp [hresN], hrel⟩
    · exact ⟨hcam, hana, hres, hrel⟩
  | capture v url =>
    simp only [step]
    split
    · rename_i hg
      have hcamT : s.isCameraActive = true := by simpa [showsCameraPanel] using hg
      obtain ⟨himg, hresN, -⟩ := hcam hcamT
      have hanaF : s.isAnalyzing = false := by
        by_contra hc
        exact (hana (by simpa using hc)).1 himg
      cases v with
      | false => exact ⟨hcam, hana, hres, hrel⟩
      | true =>
        simp only [capturePhoto, if_pos, stopCamera]
        split
        · rename_i tracks htr
          refine ⟨by simp, by simp [hanaF], by simp [hresN], ?_⟩
          intro t ht
          simp only [List.mem_append] at ht
          rcases ht with ht | ht
          · exact hrel t ht
          · simp only [List.mem_map] at ht
            obtain ⟨u, -, rfl⟩ := ht
            rfl
        · exact ⟨by simp, by simp [hanaF], by simp [hresN], hrel⟩
    · exact ⟨hcam, hana, hres, hrel⟩
  | analyzePress =>
    simp only [step]
    split
    · rename_i hg
      obtain ⟨himg, hresN, hanaF⟩ := (showsImageReadyPanel_eq_true s).mp hg
      have hcamF : s.isCameraActive = false := by
        by_contra hc
        exact himg (hcam (by simpa using hc)).1
      obtain ⟨v, hv⟩ := Option.ne_none_iff_exists'.mp himg
      simp only [analyzeStart, hv]
      exact ⟨by simp [hcamF], by simp [himg, hresN], by simp [hresN], hrel⟩
    · exact ⟨hcam, hana, hres, hrel⟩
  | analyzeDone out =>
    simp only [step]
    split
    · rename_i hg
      obtain ⟨himg, hresN⟩ := hana hg
      have hcamF : s.isCameraActive = false := by
        by_contra hc
        exact himg (hcam (by simpa using hc)).1
      cases out with
      | none =>
        simp only [analyzeSettle]
        exact ⟨by simp [hcamF], by simp, by simp [hresN], hrel⟩
      | some r =>
        simp only [analyzeSettle]
        exact ⟨by simp [hcamF], by simp, by simp [himg], hrel⟩
    · exact ⟨hcam, hana, hres, hrel⟩
  | retake =>
    simp only [step]
    split
    · rename_i hg
      obtain ⟨himg, hresN, hanaF⟩ := (showsImageReadyPanel_eq_true s).mp hg
      have hcamF : s.isCameraActive = false := by
        by_contra hc
        exact himg (hcam (by simpa using hc)).1
      exact ⟨by simp [hcamF], by simp [hanaF], by simp [hresN], hrel⟩
    · exact ⟨hcam, hana, hres, hrel⟩
  | tryAgain =>
    simp only [step]
    split
    · rename_i hg
      have hresS : s.results ≠ none := (showsResultsPanel_eq_true s).mp hg
      have himg : s.image ≠ none := hres hresS
      have hcamF : s.isCameraActive = false := by
        by_contra hc
        exact himg (hcam (by simpa using hc)).1
      exact ⟨by simp [hcamF], by simp [himg], by simp, hrel⟩
    · exact ⟨hcam, hana, hres, hrel⟩

lemma inv_foldl (es : List Event) :
    ∀ s : AppState, Inv s → Inv (es.foldl step s) := by
  induction es with
  | nil => intro s h; exact h
  | cons e es ih => intro s h; exact ih _ (inv_step s e h)

lemma inv_of_reachable {s : AppState} (h : Reachable s) : Inv s := by
  obtain ⟨es, rfl⟩ := h
  exact inv_foldl es initState inv_init

/-- A well-typed image file as the picker would deliver it. -/
def sampleFile : File :=
  { type := "image/png", dataUrl := "data:image/png;base64,QUJD" }

/-- A successful analysis object as the spec's worked example describes it. -/
def sampleResult : AnalysisResult :=
  { overallStatus := some "Well Hydrated".toList, dehydrationScore := 82
    crackness := "none", dryness := "smooth", moisture := "good"
    color := "pink", recommendations := ["drink water"] }

/-- A reachable state on the result panel: upload, analyze, successful reply. -/
def resultState : AppState :=
  run [.upload (some sampleFile), .analyzePress, .analyzeDone (some sampleResult)]

/-- A reachable state with an analysis call outstanding. -/
def analyzingState : AppState :=
  run [.upload (some sampleFile), .analyzePress]

/-- A reachable state with the camera view open on a one-track stream. -/
def camState : AppState :=
  run [.startCamera (some [{ stopped := false }])]

/-- A `JSON.parse` outcome that always throws. -/
def nullParse : String → Option AnalysisResult := fun _ => none

/-- The envelope of an API error reply: no `candidates` array, so the access
chain of `analyzeLips` throws. -/
def errorEnvelope : Envelope := { candidates := [] }

/-- C1, counterexample. In the state reached by upload, analyze and a
successful reply, the result panel is shown; pressing Try Again
(`setResults(null)`) leaves the image in place and the application does not
return to the Idle panel, contradicting the claim that both the result and
the image are cleared and the app returns to Idle. -/
theorem tryAgain_not_idle_cex :
    Reachable resultState ∧
    showsResultsPanel resultState = true ∧
    (step resultState .tryAgain).image ≠ none ∧
    (step resultState .tryAgain).image = some sampleFile.dataUrl ∧
    showsIdlePanel (step resultState .tryAgain) = false :=
  ⟨⟨[.upload (some sampleFile), .analyzePress, .analyzeDone (some sampleResult)], rfl⟩,
    by decide, by decide, by decide, by decide⟩

/-- C1, amended. Pressing Try Again on the result panel clears only the
AnalysisResult; the ImagePayload and the error text are retained, so the
application shows the ImageReady preview panel (with Analyze and Retake),
not the Idle panel. -/
theorem tryAgain_clears_only_results (s : AppState)
    (hr : s.results ≠ none) (hi : s.image ≠ none) (ha : s.isAnalyzing = false) :
    (step s .tryAgain).results = none ∧
    (step s .tryAgain).image = s.image ∧
    (step s .tryAgain).error = s.error ∧
    showsImageReadyPanel (step s .tryAgain) = true ∧
    showsIdlePanel (step s .tryAgain) = false := by
  have hg : showsResultsPanel s = true := (showsResultsPanel_eq_true s).mpr hr
  simp [step, hg, showsImageReadyPanel, showsIdlePanel,
    Option.isSome_iff_ne_none, Option.isNone_iff_eq_none, hi, ha]

/-- C1, witness: the amended behaviour at the concrete result state. -/
theorem tryAgain_clears_only_results_witness :
    (step resultState .tryAgain).results = none ∧
    (step resultState .tryAgain).image = resultState.image ∧
    (step resultState .tryAgain).error = resultState.error ∧
    showsImageReadyPanel (step resultState .tryAgain) = true ∧
    showsIdlePanel (step resultState .tryAgain) = false :=
  tryAgain_clears_only_results resultState (by decide) (by decide) (by decide)

/-- C2, counterexample. In the reachable state with a call outstanding
(`isAnalyzing` true, image still set), a direct second invocation of
`analyzeLips` passes its only guard (`if (!image) return`) and issues a
second outbound request, contradicting the claim that it is a no-op issuing
no request. -/
theorem analyze_second_call_cex :
    Reachable analyzingState ∧
    analyzingState.isAnalyzing = true ∧
    (analyzeStart analyzingState).2 = true :=
  ⟨⟨[.upload (some sampleFile), .analyzePress], rfl⟩, by decide, by decide⟩

/-- C2, amended. `analyzeLips` is guarded only by the absence of an image,
not by `isAnalyzing`: with no image it is a no-op issuing no request, but a
direct second invocation while a call is outstanding would issue a second
request. The UI however renders the Analyze button only on the preview panel
(`image && !results && !isAnalyzing`), so while a call is outstanding no
event can issue a request — UI-driven invocations yield exactly one
outstanding request. -/
theorem analyze_guard_amended :
    (∀ s : AppState, s.image = none → analyzeStart s = (s, false)) ∧
    (∀ (s : AppState) (e : Event), s.isAnalyzing = true →
      issuesRequest s e = false) := by
  constructor
  · intro s h
    simp [analyzeStart, h]
  · intro s e h
    cases e <;> simp [issuesRequest, showsImageReadyPanel, h]

/-- C2, witness: the no-image guard at the initial state, and no request
from any button while the concrete analyzing state is outstanding. -/
theorem analyze_guard_amended_witness :
    analyzeStart initState = (initState, false) ∧
    issuesRequest analyzingState .analyzePress = false ∧
    issuesRequest analyzingState .tryAgain = false :=
  ⟨analyze_guard_amended.1 initState rfl,
    analyze_guard_amended.2 analyzingState .analyzePress (by decide),
    analyze_guard_amended.2 analyzingState .tryAgain (by decide)⟩

/-- C3, confirmed. A file whose declared type does not begin with "image/"
only sets the invalid-input error message: the image and results are
unchanged, and when the upload is submitted from the Idle panel the
application stays on the Idle panel. -/
theorem upload_rejects_non_image (s : AppState) (f : File)
    (h : jsStartsWith f.type "image/" = false) :
    handleImageUpload s (some f) = { s with error := invalidImageMsg } ∧
    (handleImageUpload s (some f)).image = s.image ∧
    (handleImageUpload s (some f)).results = s.results ∧
    (showsIdlePanel s = true →
      step s (.upload (some f)) = { s with error := invalidImageMsg } ∧
      showsIdlePanel (step s (.upload (some f))) = true) := by
  refine ⟨?_, ?_, ?_, ?_⟩
  · simp [handleImageUpload, h]
  · simp [handleImageUpload, h]
  · simp [handleImageUpload, h]
  · intro hg
    obtain ⟨himg, hcamF⟩ := (showsIdlePanel_eq_true s).mp hg
    constructor
    · simp [step, hg, handleImageUpload, h]
    · simp [step, hg, handleImageUpload, h, showsIdlePanel, himg, hcamF]

/-- C3, witness: a text file submitted in the initial state. -/
theorem upload_rejects_non_image_witness :
    handleImageUpload initState (some { type := "text/plain", dataUrl := "x" }) =
      { initState with error := invalidImageMsg } ∧
    (handleImageUpload initState (some { type := "text/plain", dataUrl := "x" })).image =
      initState.image ∧
    (handleImageUpload initState (some { type := "text/plain", dataUrl := "x" })).results =
      initState.results ∧
    (showsIdlePanel initState = true →
      step initState (.upload (some { type := "text/plain", dataUrl := "x" })) =
        { initState with error := invalidImageMsg } ∧
      showsIdlePanel (step initState (.upload (some { type := "text/plain", dataUrl := "x" }))) =
        true) :=
  upload_rejects_non_image initState { type := "text/plain", dataUrl := "x" } (by decide)

/-- C4, confirmed. In every reachable state, acquiring a new image — a
successful upload of an image file from the Idle panel, or a camera capture —
leaves a state whose stored image is the new payload and whose results and
error are cleared: the upload callback clears them explicitly, and while the
camera view is open no result or error can exist (invariant), so none
survives the capture. -/
theorem new_image_clears_stale (s : AppState) (f : File) (url : String)
    (hre : Reachable s) :
    (showsIdlePanel s = true → jsStartsWith f.type "image/" = true →
      (step s (.upload (some f))).image = some f.dataUrl ∧
      (step s (.upload (some f))).results = none ∧
      (step s (.upload (some f))).error = "") ∧
    (showsCameraPanel s = true →
      (step s (.capture true url)).image = some url ∧
      (step s (.capture true url)).results = none ∧
      (step s (.capture true url)).error = "") := by
  obtain ⟨hcam, hana, hres, hrel⟩ := inv_of_reachable hre
  constructor
  · intro hg hty
    simp [step, hg, handleImageUpload, hty]
  · intro hg
    have hcamT : s.isCameraActive = true := by simpa [showsCameraPanel] using hg
    obtain ⟨himg, hresN, herr⟩ := hcam hcamT
    cases hsr : s.streamRef <;>
      simp [step, hg, capturePhoto, stopCamera, hsr, hresN, herr]

/-- C4, witness: upload at the initial state, capture at the concrete
camera state. -/
theorem new_image_clears_stale_witness :
    ((step initState (.upload (some sampleFile))).image = some sampleFile.dataUrl ∧
      (step initState (.upload (some sampleFile))).results = none ∧
      (step initState (.upload (some sampleFile))).error = "") ∧
    ((step camState (.capture true "data:image/jpeg;base64,QUJD")).image =
        some "data:image/jpeg;base64,QUJD" ∧
      (step camState (.capture true "data:image/jpeg;base64,QUJD")).results = none ∧
      (step camState (.capture true "data:image/jpeg;base64,QUJD")).error = "") :=
  ⟨(new_image_clears_stale initState sampleFile "x" ⟨[], rfl⟩).1 (by decide) (by decide),
    (new_image_clears_stale camState sampleFile "data:image/jpeg;base64,QUJD"
      ⟨[.startCamera (some [{ stopped := false }])], rfl⟩).2 (by decide)⟩

/-- C5, confirmed. From every reachable state with the camera view open,
capturing a photo releases the camera session upon entering the preview:
the stream handle is nulled, the camera view closes, every track ever
released has had `stop()` called on it, the produced payload is stored, and
the ImageReady panel is shown. The state holds at most one stream handle
(`streamRef` is a single optional field), so no two sessions are ever open
concurrently. -/
theorem capture_releases_camera (s : AppState) (url : String)
    (hre : Reachable s) (hcamT : s.isCameraActive = true) :
    (step s (.capture true url)).streamRef = none ∧
    (step s (.capture true url)).isCameraActive = false ∧
    (∀ t ∈ (step s (.capture true url)).released, t.stopped = true) ∧
    (step s (.capture true url)).image = some url ∧
    showsImageReadyPanel (step s (.capture true url)) = true := by
  have hi := inv_of_reachable hre
  obtain ⟨hcam, hana, hres, hrel⟩ := hi
  obtain ⟨himg, hresN, herr⟩ := hcam hcamT
  have hanaF : s.isAnalyzing = false := by
    by_contra hc
    exact (hana (by simpa using hc)).1 himg
  have hg : showsCameraPanel s = true := by simpa [showsCameraPanel] using hcamT
  obtain ⟨-, -, -, hrel'⟩ := inv_step s (.capture true url) ⟨hcam, hana, hres, hrel⟩
  refine ⟨?_, ?_, hrel', ?_, ?_⟩ <;>
    cases hsr : s.streamRef <;>
      simp [step, hg, capturePhoto, stopCamera, hsr, hresN, hanaF,
        showsImageReadyPanel]

/-- C5, witness: capture at the concrete camera state with one live track. -/
theorem capture_releases_camera_witness :
    (step camState (.capture true "data:image/jpeg;base64,QUJD")).streamRef = none ∧
    (step camState (.capture true "data:image/jpeg;base64,QUJD")).isCameraActive = false ∧
    (∀ t ∈ (step camState (.capture true "data:image/jpeg;base64,QUJD")).released,
      t.stopped = true) ∧
    (step camState (.capture true "data:image/jpeg;base64,QUJD")).image =
      some "data:image/jpeg;base64,QUJD" ∧
    showsImageReadyPanel (step camState (.capture true "data:image/jpeg;base64,QUJD")) =
      true :=
  capture_releases_camera camState "data:image/jpeg;base64,QUJD"
    ⟨[.startCamera (some [{ stopped := false }])], rfl⟩ (by decide)

/-- Modelled from the spec: "everything after the first comma" of a
character list, the payload the spec says the encoding transform extracts
from a data-URI; `none` when no comma occurs. Comparator for the refinement
claim about `image.split(',')[1]`. -/
def afterFirstComma : List Char → Option (List Char)
  | [] => none
  | c :: cs => if c = ',' then some cs else afterFirstComma cs

lemma jsSplit_ne_nil (sep : Char) (l : List Char) : jsSplit sep l ≠ [] := by
  cases l with
  | nil => simp [jsSplit]
  | cons c cs =>
    simp only [jsSplit]
    cases h : jsSplit sep cs with
    | nil => simp
    | cons g gs => by_cases hc : c = sep <;> simp [hc]

lemma jsSplit_of_not_mem (l : List Char) (h : ',' ∉ l) : jsSplit ',' l = [l] := by
  induction l with
  | nil => rfl
  | cons c cs ih =>
    have hc : ¬(c = ',') := fun hcc => h (by simp [hcc])
    have hcs : ',' ∉ cs := fun hm => h (List.mem_cons_of_mem c hm)
    simp [jsSplit, ih hcs, hc]

lemma jsSplit_append (p r : List Char) (hp : ',' ∉ p) :
    jsSplit ',' (p ++ ',' :: r) = p :: jsSplit ',' r := by
  induction p with
  | nil =>
    cases h : jsSplit ',' r with
    | nil => exact absurd h (jsSplit_ne_nil ',' r)
    | cons g gs => simp [jsSplit, h]
  | cons c cs ih =>
    have hc : ¬(c = ',') := fun hcc => hp (by simp [hcc])
    have hcs : ',' ∉ cs := fun hm => hp (List.mem_cons_of_mem c hm)
    simp [jsSplit, ih hcs, hc]

lemma afterFirstComma_append (p r : List Char) (hp : ',' ∉ p) :
    afterFirstComma (p ++ ',' :: r) = some r := by
  induction p with
  | nil => simp [afterFirstComma]
  | cons c cs ih =>
    have hc : ¬(c = ',') := fun hcc => hp (by simp [hcc])
    have hcs : ',' ∉ cs := fun hm => hp (List.mem_cons_of_mem c hm)
    simp [afterFirstComma, hc, ih hcs]

/-- C6, counterexample. On a data-URI whose remainder holds a second comma,
`image.split(',')[1]` yields only the segment between the first and second
comma, not everything after the first comma as the claim states for every
data-URI string. -/
theorem split_second_segment_cex :
    base64Data "data:image/jpeg;base64,QUJD,RUZH" = some ("QUJD".toList) ∧
    afterFirstComma ("data:image/jpeg;base64,QUJD,RUZH".toList) =
      some ("QUJD,RUZH".toList) ∧
    base64Data "data:image/jpeg;base64,QUJD,RUZH" ≠
      afterFirstComma ("data:image/jpeg;base64,QUJD,RUZH".toList) :=
  ⟨by decide, by decide, by decide⟩

/-- C6, amended. `image.split(',')[1]` extracts the segment between the
first and the second comma; it equals everything after the first comma
exactly when that remainder contains no further comma — which holds
uniformly for payloads produced by capture or file-read, since base64 text
never contains a comma. -/
theorem base64Data_after_first_comma (p r : List Char)
    (hp : ',' ∉ p) (hr : ',' ∉ r) :
    base64DataL (p ++ ',' :: r) = some r ∧
    base64DataL (p ++ ',' :: r) = afterFirstComma (p ++ ',' :: r) := by
  have h1 : jsSplit ',' (p ++ ',' :: r) = p :: jsSplit ',' r := jsSplit_append p r hp
  have h2 : jsSplit ',' r = [r] := jsSplit_of_not_mem r hr
  refine ⟨?_, ?_⟩
  · simp [base64DataL, h1, h2]
  · simp [base64DataL, h1, h2, afterFirstComma_append p r hp]

/-- C6, witness: the prefix-stripping equation at a concrete comma-free
data-URI. -/
theorem base64Data_after_first_comma_witness :
    base64DataL ("data:image/jpeg;base64".toList ++ ',' :: "QUJD".toList) =
      some ("QUJD".toList) ∧
    base64DataL ("data:image/jpeg;base64".toList ++ ',' :: "QUJD".toList) =
      afterFirstComma ("data:image/jpeg;base64".toList ++ ',' :: "QUJD".toList) :=
  base64Data_after_first_comma ("data:image/jpeg;base64".toList) ("QUJD".toList)
    (by decide) (by decide)

/-- C7, confirmed. When an outstanding analysis fails anywhere along the
chain — fetch rejection or unparsable body (`httpOut = none`), an envelope
whose candidate/part access throws, or a `JSON.parse` failure — the state
gets exactly the generic API-key error message with the analyzing flag
cleared; the image and any prior results are untouched, and the completion
issues no further request. -/
theorem analysis_failure_keeps_image (s : AppState) (httpOut : Option Envelope)
    (parse : String → Option AnalysisResult)
    (ha : s.isAnalyzing = true) (hout : analysisOutcome httpOut parse = none) :
    step s (.analyzeDone (analysisOutcome httpOut parse)) =
      { s with error := analysisErrorMsg, isAnalyzing := false } ∧
    (step s (.analyzeDone (analysisOutcome httpOut parse))).image = s.image ∧
    (step s (.analyzeDone (analysisOutcome httpOut parse))).results = s.results ∧
    issuesRequest s (.analyzeDone (analysisOutcome httpOut parse)) = false := by
  refine ⟨?_, ?_, ?_, ?_⟩ <;> simp [hout, step, ha, analyzeSettle, issuesRequest]

/-- C7, witness: a rejected fetch completing in the concrete analyzing
state. -/
theorem analysis_failure_keeps_image_witness :
    step analyzingState (.analyzeDone (analysisOutcome none nullParse)) =
      { analyzingState with error := analysisErrorMsg, isAnalyzing := false } ∧
    (step analyzingState (.analyzeDone (analysisOutcome none nullParse))).image =
      analyzingState.image ∧
    (step analyzingState (.analyzeDone (analysisOutcome none nullParse))).results =
      analyzingState.results ∧
    issuesRequest analyzingState (.analyzeDone (analysisOutcome none nullParse)) = false :=
  analysis_failure_keeps_image analyzingState none nullParse (by decide) rfl

/-- C8, confirmed. The key resolver returns the empty string whenever the
environment read throws or the variable is undefined (it always returns a
string, never propagating an exception), and an analysis call made without
a credential — the endpoint answers with an error envelope carrying no
candidates, so the access chain throws into the catch — settles in the
generic error state instead of crashing. -/
theorem missing_api_key_safe (acc : Except Unit (Option String)) (s : AppState)
    (parse : String → Option AnalysisResult)
    (hacc : acc = Except.error () ∨ acc = Except.ok none)
    (ha : s.isAnalyzing = true) :
    getApiKey acc = "" ∧
    getResultText errorEnvelope = none ∧
    step s (.analyzeDone (analysisOutcome (some errorEnvelope) parse)) =
      { s with error := analysisErrorMsg, isAnalyzing := false } := by
  refine ⟨?_, rfl, ?_⟩
  · rcases hacc with h | h <;> simp [getApiKey, h]
  · simp [analysisOutcome, errorEnvelope, getResultText, step, ha, analyzeSettle]

/-- C8, witness: a throwing environment read, and the error-envelope
completion in the concrete analyzing state. -/
theorem missing_api_key_safe_witness :
    getApiKey (Except.error ()) = "" ∧
    getResultText errorEnvelope = none ∧
    step analyzingState (.analyzeDone (analysisOutcome (some errorEnvelope) nullParse)) =
      { analyzingState with error := analysisErrorMsg, isAnalyzing := false } :=
  missing_api_key_safe (Except.error ()) analyzingState nullParse (Or.inl rfl) (by decide)

/-- C9, confirmed. The colour classification is by substring match on the
lowercased status: containing "well" gives the emerald (healthy) classes,
containing "mild" but not "well" the amber (caution) classes, anything else
the rose (alert) classes; and the successful reply with score 82 and status
"Well Hydrated" reaches the result panel, renders "82%", and classifies as
healthy. -/
theorem status_classification (st : List Char) :
    (jsIncludes (st.map Char.toLower) ("well".toList) = true →
      getStatusColor (some st) "bg" = "bg-emerald-500" ∧
      getStatusColor (some st) "text" = "text-emerald-600") ∧
    (jsIncludes (st.map Char.toLower) ("well".toList) = false →
      jsIncludes (st.map Char.toLower) ("mild".toList) = true →
      getStatusColor (some st) "bg" = "bg-amber-500" ∧
      getStatusColor (some st) "text" = "text-amber-600") ∧
    (jsIncludes (st.map Char.toLower) ("well".toList) = false →
      jsIncludes (st.map Char.toLower) ("mild".toList) = false →
      getStatusColor (some st) "bg" = "bg-rose-500" ∧
      getStatusColor (some st) "text" = "text-rose-600") ∧
    (resultState.results = some sampleResult ∧
      renderedScore sampleResult = "82%" ∧
      getStatusColor sampleResult.overallStatus "bg" = "bg-emerald-500" ∧
      getStatusColor sampleResult.overallStatus "text" = "text-emerald-600") := by
  refine ⟨?_, ?_, ?_, by decide, by decide, by decide, by decide⟩
  · intro h
    simp at h
    constructor <;> simp [getStatusColor, h]
  · intro h1 h2
    simp at h1 h2
    constructor <;> simp [getStatusColor, h1, h2]
  · intro h1 h2
    simp at h1 h2
    constructor <;> simp [getStatusColor, h1, h2]

/-- C9, witness: one concrete status per classification branch. -/
theorem status_classification_witness :
    (getStatusColor (some "Well Hydrated".toList) "bg" = "bg-emerald-500" ∧
      getStatusColor (some "Well Hydrated".toList) "text" = "text-emerald-600") ∧
    (getStatusColor (some "Mild Dryness".toList) "bg" = "bg-amber-500" ∧
      getStatusColor (some "Mild Dryness".toList) "text" = "text-amber-600") ∧
    (getStatusColor (some "Severe Dehydration".toList) "bg" = "bg-rose-500" ∧
      getStatusColor (some "Severe Dehydration".toList) "text" = "text-rose-600") :=
  ⟨(status_classification ("Well Hydrated".toList)).1 (by decide),
    (status_classification ("Mild Dryness".toList)).2.1 (by decide) (by decide),
    (status_classification ("Severe Dehydration".toList)).2.2.1 (by decide) (by decide)⟩

/-- C10, confirmed. For an absent (null or undefined) `overallStatus`,
`getStatusColor` evaluates on the empty lowercased string and returns the
alert (rose) classes, for both the background and the text variants —
no exception is possible. -/
theorem statusColor_total_on_absent :
    getStatusColor none "bg" = "bg-rose-500" ∧
    getStatusColor none "text" = "text-rose-600" :=
  ⟨by decide, by decide⟩

end LipHydration
